import Mathlib

/-
Verification of the chat-app server (sanlamamba/chat-app).

Shallow embedding of the server-side messaging plane: the error-code and
frame vocabulary (config/constants.js), the connection hub and router
(handlers/RoomHandler.js, which holds the RoomHandler class and two
ConnectionHandler revisions), the message handler (MessageHandler),
room creation (services/RoomService.js, models/Room.js), the two-tier
cache (utils/cacheManager.js), the circuit breaker (utils/circuitBreaker.js),
the rate limiter (middleware/RateLimiter.js), the typing-indicator state
(services/RoomService.js over Redis set semantics) and the content
sanitizer (utils/validator.js).  Each definition mirrors one source
function; time is passed explicitly in milliseconds where the source
consults Date.now().
-/

/-- Error codes from CONSTANTS.ERROR_CODES in config/constants.js. -/
inductive ErrCode where
  | invalidMessage
  | unauthorized
  | roomNotFound
  | roomExists
  | userExists
  | rateLimit
  | invalidCommand
  | databaseError
  | internalError
deriving DecidableEq, Repr

/-- A server-to-client error frame, as built by sendError and by
AppError.toJSON in utils/errorHandler.js.  The retryAfter field is
populated only by RateLimitError.toJSON. -/
structure ErrorFrame where
  code : ErrCode
  message : String
  retryAfter : Option Nat
deriving DecidableEq, Repr

/-- In-memory connection record kept by ConnectionHandler.connections
(one per socket).  The ws object is represented by the numeric id;
wsOpen models ws.readyState === ws.OPEN. -/
structure Conn where
  id : Nat
  currentRoom : Option String
  wsOpen : Bool
deriving DecidableEq, Repr

/-- ConnectionHandler.broadcastToRoom: iterate the connection map and
write to every open socket whose currentRoom matches, skipping the
excluded socket when one is given (ws !== excludeWs).  Returns the ids
of the sockets written to, in iteration order. -/
def broadcastToRoom (conns : List Conn) (roomId : String) (excludeId : Option Nat) :
    List Nat :=
  (conns.filter (fun c =>
    c.currentRoom == some roomId &&
    (match excludeId with
     | some e => c.id != e
     | none => true) &&
    c.wsOpen)).map (fun c => c.id)

/-- ConnectionHandler.broadcastToAll: write to every open socket. -/
def broadcastToAll (conns : List Conn) : List Nat :=
  (conns.filter (fun c => c.wsOpen)).map (fun c => c.id)

/-- ConnectionHandler.setupRedisSubscriptions: the single handler
registered on the Redis subscriber client.  Only the global:broadcast
channel is fanned out; a payload arriving on any other channel (the
room channels subscribed to by RoomHandler.subscribeToRoom included)
falls through the if and reaches no socket. -/
def redisMessageHandler (channel : String) (conns : List Conn) : List Nat :=
  if channel == "global:broadcast" then broadcastToAll conns else []

/-- Claim C9: payloads delivered by the bus subscription on any channel
other than global:broadcast are forwarded to no local socket. -/
theorem claim_C9 (channel : String) (conns : List Conn)
    (h : channel ≠ "global:broadcast") :
    redisMessageHandler channel conns = [] := by
  unfold redisMessageHandler
  simp [h]

/-- Witness for claim C9 at a concrete room channel. -/
theorem claim_C9_witness :
    redisMessageHandler "room:42:messages" [⟨1, some "42", true⟩] = [] := by
  exact claim_C9 "room:42:messages" [⟨1, some "42", true⟩] (by decide)

/-- Result of routing one inbound frame: either a handler is invoked or
an error frame is sent back; the socket is closed in neither case. -/
inductive RouteOut where
  | dispatched (handlerName : String)
  | errorFrame (code : ErrCode)
deriving DecidableEq, Repr

/-- Outcome of ConnectionHandler.routeMessage: what was produced for the
frame, and whether the socket was closed by the router (it never is;
sockets close only from the ws close event). -/
structure RouteResult where
  out : RouteOut
  socketClosed : Bool
deriving DecidableEq, Repr

/-- The switch-based ConnectionHandler.routeMessage (second revision in
handlers/RoomHandler.js): an unauthenticated connection sending any
type other than auth is answered by sendError with code UNAUTHORIZED;
otherwise the switch dispatches by type, with unknown types answered by
sendError with the default INVALID_MESSAGE code. -/
def routeMessageSwitch (authenticated : Bool) (t : String) : RouteResult :=
  if t ≠ "auth" ∧ authenticated = false then
    ⟨RouteOut.errorFrame ErrCode.unauthorized, false⟩
  else if t = "auth" then ⟨RouteOut.dispatched "handleAuth", false⟩
  else if t = "create_room" then ⟨RouteOut.dispatched "handleCreateRoom", false⟩
  else if t = "join_room" then ⟨RouteOut.dispatched "handleJoinRoom", false⟩
  else if t = "leave_room" then ⟨RouteOut.dispatched "handleLeaveRoom", false⟩
  else if t = "send_message" then ⟨RouteOut.dispatched "handleSendMessage", false⟩
  else if t = "typing_start" then ⟨RouteOut.dispatched "handleTypingIndicator", false⟩
  else if t = "typing_stop" then ⟨RouteOut.dispatched "handleTypingIndicator", false⟩
  else if t = "command" then ⟨RouteOut.dispatched "handleCommand", false⟩
  else ⟨RouteOut.errorFrame ErrCode.invalidMessage, false⟩

/-- The instrumented ConnectionHandler.routeMessage (first revision in
handlers/RoomHandler.js): an unauthenticated connection sending any
type other than auth makes it throw
ValidationError("Authentication required"), which the message loop
turns into an error frame via createErrorResponse; ValidationError
carries code INVALID_MESSAGE (utils/errorHandler.js), not UNAUTHORIZED.
Known types dispatch through the handlers table; unknown types throw
ValidationError as well. -/
def routeMessageWrapped (authenticated : Bool) (t : String) : RouteResult :=
  if t ≠ "auth" ∧ authenticated = false then
    ⟨RouteOut.errorFrame ErrCode.invalidMessage, false⟩
  else if t = "auth" then ⟨RouteOut.dispatched "handleAuth", false⟩
  else if t = "create_room" then ⟨RouteOut.dispatched "handleCreateRoom", false⟩
  else if t = "join_room" then ⟨RouteOut.dispatched "handleJoinRoom", false⟩
  else if t = "leave_room" then ⟨RouteOut.dispatched "handleLeaveRoom", false⟩
  else if t = "send_message" then ⟨RouteOut.dispatched "handleSendMessage", false⟩
  else if t = "typing_start" then ⟨RouteOut.dispatched "handleTypingIndicator", false⟩
  else if t = "typing_stop" then ⟨RouteOut.dispatched "handleTypingIndicator", false⟩
  else if t = "command" then ⟨RouteOut.dispatched "handleCommand", false⟩
  else ⟨RouteOut.errorFrame ErrCode.invalidMessage, false⟩

/-- Claim C2, counterexample: the instrumented router answers an
unauthenticated send_message with code INVALID_MESSAGE, not
UNAUTHORIZED as the claim requires of every pre-auth frame. -/
theorem claim_C2_cex :
    routeMessageWrapped false "send_message"
      = ⟨RouteOut.errorFrame ErrCode.invalidMessage, false⟩ ∧
    RouteOut.errorFrame ErrCode.invalidMessage
      ≠ RouteOut.errorFrame ErrCode.unauthorized := by
  constructor
  · rfl
  · decide

/-- Claim C2 (amended): on an unauthenticated connection every frame
whose type is not auth is answered with an error frame, no handler is
dispatched, and the socket stays open; the switch-based router uses
code UNAUTHORIZED while the instrumented router surfaces the
ValidationError code INVALID_MESSAGE. -/
theorem claim_C2_amended (t : String) (h : t ≠ "auth") :
    routeMessageSwitch false t
      = ⟨RouteOut.errorFrame ErrCode.unauthorized, false⟩ ∧
    routeMessageWrapped false t
      = ⟨RouteOut.errorFrame ErrCode.invalidMessage, false⟩ := by
  unfold routeMessageSwitch routeMessageWrapped
  rw [if_pos ⟨h, rfl⟩, if_pos ⟨h, rfl⟩]
  exact ⟨rfl, rfl⟩

/-- Witness for claim C2 (amended) at a send_message frame. -/
theorem claim_C2_amended_witness :
    routeMessageSwitch false "send_message"
      = ⟨RouteOut.errorFrame ErrCode.unauthorized, false⟩ ∧
    routeMessageWrapped false "send_message"
      = ⟨RouteOut.errorFrame ErrCode.invalidMessage, false⟩ :=
  claim_C2_amended "send_message" (by decide)

/-- MessageHandler.handleSendMessage (handlers/MessageHandler.js): after
the room and content checks and a successful MessageService.sendMessage,
the message frame is broadcast with this.broadcastToRoom(currentRoom,
frame) with no exclude argument, which reaches ConnectionHandler's
broadcastToRoom with excludeWs = null.  Returns the socket ids that
receive the message frame. -/
def handleSendMessage (conns : List Conn) (sender : Conn) (content : String)
    (serviceOk : Bool) : List Nat :=
  match sender.currentRoom with
  | none => []
  | some roomId =>
    if content.length = 0 then []
    else if 4096 < content.length then []
    else if serviceOk then broadcastToRoom conns roomId none
    else []

/-- Claim C1, counterexample: with connections 1 and 2 both open in room
lobby and connection 2 sending, the message frame is delivered to the
sender's own socket as well, contradicting the sender-exclusion part of
the claim. -/
theorem claim_C1_cex :
    2 ∈ handleSendMessage
      [⟨1, some "lobby", true⟩, ⟨2, some "lobby", true⟩]
      ⟨2, some "lobby", true⟩ "hi" true := by
  decide

/-- Claim C1 (amended): a successful send_message from a member of room
R produces exactly one message frame on the socket of every open member
of R, the sender included; the sender is not excluded from the
broadcast. -/
theorem claim_C1_amended (conns : List Conn) (sender : Conn) (content : String)
    (roomId : String)
    (hnodup : (conns.map (fun c => c.id)).Nodup)
    (hroom : sender.currentRoom = some roomId)
    (hmem : sender ∈ conns) (hopen : sender.wsOpen = true)
    (hne : content.length ≠ 0) (hlen : content.length ≤ 4096) :
    (handleSendMessage conns sender content true).Nodup ∧
    (∀ c ∈ conns,
      (c.id ∈ handleSendMessage conns sender content true ↔
        (c.currentRoom = some roomId ∧ c.wsOpen = true))) ∧
    sender.id ∈ handleSendMessage conns sender content true := by
  have hre : handleSendMessage conns sender content true
      = (conns.filter (fun c => c.currentRoom == some roomId && c.wsOpen)).map
          (fun c => c.id) := by
    unfold handleSendMessage broadcastToRoom
    rw [hroom]
    simp [hne, Nat.not_lt.mpr hlen]
  have hiff : ∀ c ∈ conns,
      (c.id ∈ handleSendMessage conns sender content true ↔
        (c.currentRoom = some roomId ∧ c.wsOpen = true)) := by
    intro c hc
    rw [hre]
    constructor
    · intro hid
      rcases List.mem_map.mp hid with ⟨b, hb, hbid⟩
      rcases List.mem_filter.mp hb with ⟨hbmem, hbp⟩
      have hbc : b = c := List.inj_on_of_nodup_map hnodup hbmem hc hbid
      subst hbc
      simpa using hbp
    · intro hcnd
      exact List.mem_map.mpr
        ⟨c, List.mem_filter.mpr ⟨hc, by simp [hcnd.1, hcnd.2]⟩, rfl⟩
  refine ⟨?_, hiff, ?_⟩
  · rw [hre]
    exact hnodup.sublist ((List.filter_sublist conns).map _)
  · exact (hiff sender hmem).mpr ⟨hroom, hopen⟩

/-- Witness for claim C1 (amended) on a two-member room. -/
theorem claim_C1_amended_witness :
    (handleSendMessage
      [⟨1, some "lobby", true⟩, ⟨2, some "lobby", true⟩]
      ⟨2, some "lobby", true⟩ "hi" true).Nodup ∧
    (∀ c ∈ [Conn.mk 1 (some "lobby") true, Conn.mk 2 (some "lobby") true],
      (c.id ∈ handleSendMessage
        [⟨1, some "lobby", true⟩, ⟨2, some "lobby", true⟩]
        ⟨2, some "lobby", true⟩ "hi" true ↔
        (c.currentRoom = some "lobby" ∧ c.wsOpen = true))) ∧
    (Conn.mk 2 (some "lobby") true).id ∈ handleSendMessage
      [⟨1, some "lobby", true⟩, ⟨2, some "lobby", true⟩]
      ⟨2, some "lobby", true⟩ "hi" true :=
  claim_C1_amended _ _ _ "lobby" (by decide) rfl (by decide) rfl
    (by decide) (by decide)

/-- A Room document, models/Room.js (the counters live under metadata
in the schema). -/
structure RoomRec where
  roomId : String
  name : String
  createdBy : String
  isActive : Bool
  currentUsers : Nat
  peakUsers : Nat
  messageCount : Nat
  totalUniqueUsers : Nat
deriving DecidableEq, Repr

/-- The update performed by the static Room.incrementUserCount on the
room it found: currentUsers is clamped at 0, peakUsers tracks a new
maximum only for positive increments, totalUniqueUsers is bumped by one
on every positive increment, and the room is deactivated when the count
reaches 0. -/
def applyIncrement (r : RoomRec) (inc : Int) : RoomRec :=
  let cu : Nat := (Int.ofNat r.currentUsers + inc).toNat
  let r1 := { r with currentUsers := cu }
  let r2 := if 0 < inc ∧ r.peakUsers < cu then { r1 with peakUsers := cu } else r1
  let r3 := if 0 < inc then { r2 with totalUniqueUsers := r2.totalUniqueUsers + 1 }
            else r2
  if cu = 0 then { r3 with isActive := false } else r3

/-- Room.incrementUserCount(roomId, increment): look the room up by
roomId (active or not), return null when absent, otherwise save the
updated document. -/
def incrementUserCount (db : List RoomRec) (roomId : String) (inc : Int) :
    Option RoomRec :=
  match db.find? (fun r => r.roomId == roomId) with
  | none => none
  | some r => some (applyIncrement r inc)

/-- Claim C10: every call of Room.incrementUserCount with a positive
increment on an existing room bumps metadata.totalUniqueUsers by
exactly 1, whatever the increment and whoever joins; the counter counts
join events, not distinct users. -/
theorem claim_C10 (db : List RoomRec) (roomId : String) (inc : Int)
    (r : RoomRec) (hfind : db.find? (fun r => r.roomId == roomId) = some r)
    (hpos : 0 < inc) :
    ∃ r2, incrementUserCount db roomId inc = some r2 ∧
      r2.totalUniqueUsers = r.totalUniqueUsers + 1 := by
  refine ⟨applyIncrement r inc, ?_, ?_⟩
  · unfold incrementUserCount
    rw [hfind]
  · unfold applyIncrement
    simp only [hpos, if_true]
    split <;> split <;> rfl

/-- Witness for claim C10: a second join by an already-counted user
still increments totalUniqueUsers. -/
theorem claim_C10_witness :
    ∃ r2, incrementUserCount
        [⟨"r1", "lobby", "u1", true, 1, 2, 0, 5⟩] "r1" 1 = some r2 ∧
      r2.totalUniqueUsers = (RoomRec.mk "r1" "lobby" "u1" true 1 2 0 5).totalUniqueUsers + 1 :=
  claim_C10 _ "r1" 1 _ (by decide) (by decide)

/-- The JavaScript regex whitespace class, as matched by a backslash-s
in the room-name regex, in the whitespace-collapse step of the
sanitizer and by String.prototype.trim. -/
def isJsWs (c : Char) : Bool :=
  let n := c.toNat
  n == 9 || n == 10 || n == 11 || n == 12 || n == 13 || n == 32 ||
  n == 160 || n == 0x1680 || (0x2000 ≤ n && n ≤ 0x200a) ||
  n == 0x2028 || n == 0x2029 || n == 0x202f || n == 0x205f ||
  n == 0x3000 || n == 0xfeff

/-- Character class of CONSTANTS.REGEX.ROOM_NAME: letters, digits,
underscore, hyphen and whitespace (the hyphen before the class escape
is literal). -/
def isRoomNameChar (c : Char) : Bool :=
  (97 ≤ c.toNat && c.toNat ≤ 122) || (65 ≤ c.toNat && c.toNat ≤ 90) ||
  (48 ≤ c.toNat && c.toNat ≤ 57) || c == '_' || c == '-' || isJsWs c

/-- CONSTANTS.REGEX.ROOM_NAME test: anchored, 3 to 50 characters of the
room-name class. -/
def roomNameOk (name : String) : Bool :=
  name.toList.all isRoomNameChar && 3 ≤ name.length && name.length ≤ 50

/-- Result of RoomService.createRoom: the created room or the error
string placed in the error field of the result object. -/
inductive CreateRes where
  | success (room : RoomRec)
  | failure (err : String)
deriving DecidableEq, Repr

/-- State owned by RoomService: the process-local name cache
(localRoomCache, name to roomId) and the durable Room collection. -/
structure RoomSvcSt where
  nameCache : List (String × String)
  db : List RoomRec
deriving DecidableEq, Repr

/-- Room.findByName: findOne on name with isActive true. -/
def findByNameActive (db : List RoomRec) (name : String) : Option RoomRec :=
  db.find? (fun r => r.name == name && r.isActive)

/-- RoomServiceClass.createRoom under the creation mutex: validate the
name, consult the local name cache, consult the durable store for an
active room of that name (caching a hit), then insert through
Room.createRoom, whose unique-index conflict returns the ROOM_EXISTS
sentinel as the error string. -/
def createRoom (st : RoomSvcSt) (roomName userId : String) (freshId : String) :
    RoomSvcSt × CreateRes :=
  if roomNameOk roomName then
    if (st.nameCache.find? (fun p => p.1 == roomName)).isSome then
      (st, CreateRes.failure "Room already exists")
    else
      match findByNameActive st.db roomName with
      | some r =>
        ({ st with nameCache := (roomName, r.roomId) :: st.nameCache },
         CreateRes.failure "Room already exists")
      | none =>
        if st.db.any (fun r => r.name == roomName) then
          (st, CreateRes.failure "ROOM_EXISTS")
        else
          let room : RoomRec := ⟨freshId, roomName, userId, true, 0, 0, 0, 0⟩
          ({ st with db := st.db ++ [room],
                     nameCache := (roomName, freshId) :: st.nameCache },
           CreateRes.success room)
  else (st, CreateRes.failure "Invalid room name format")

/-- RoomHandler.handleCreateRoom: a missing name or a failed
RoomService.createRoom is answered by sendError(ws, message), which
uses the default INVALID_MESSAGE code; on success the room is joined
and a room_created frame is sent instead of an error frame.  Returns
the new service state and the error frame, if any. -/
def handleCreateRoom (st : RoomSvcSt) (roomName userId freshId : String) :
    RoomSvcSt × Option ErrorFrame :=
  if roomName = "" then
    (st, some ⟨ErrCode.invalidMessage, "Room name is required", none⟩)
  else
    match createRoom st roomName userId freshId with
    | (st2, CreateRes.failure e) => (st2, some ⟨ErrCode.invalidMessage, e, none⟩)
    | (st2, CreateRes.success _) => (st2, none)

/-- Claim C3, counterexample: with an active room lobby, a second
create_room lobby is answered by an error frame whose code is
INVALID_MESSAGE (message "Room already exists"), not ROOM_EXISTS. -/
theorem claim_C3_cex :
    (handleCreateRoom
      ⟨[("lobby", "r1")], [⟨"r1", "lobby", "u1", true, 1, 1, 0, 1⟩]⟩
      "lobby" "u2" "r9").2
      = some ⟨ErrCode.invalidMessage, "Room already exists", none⟩ ∧
    ErrCode.invalidMessage ≠ ErrCode.roomExists := by
  constructor
  · rfl
  · decide

/-- Claim C3 (amended): creating a room whose valid name already names
an active room is answered with an error frame carrying the default
code INVALID_MESSAGE and the message "Room already exists" (the
ROOM_EXISTS code is never attached to the frame), and the Room
collection, the existing room included, is unchanged by the attempt. -/
theorem claim_C3_amended (st : RoomSvcSt) (name userId freshId : String)
    (r : RoomRec) (hvalid : roomNameOk name = true)
    (hex : findByNameActive st.db name = some r) :
    (handleCreateRoom st name userId freshId).2
      = some ⟨ErrCode.invalidMessage, "Room already exists", none⟩ ∧
    (handleCreateRoom st name userId freshId).1.db = st.db := by
  have hname0 : ¬ (name = "") := by
    intro h
    rw [h] at hvalid
    simp [roomNameOk] at hvalid
  unfold handleCreateRoom
  rw [if_neg hname0]
  by_cases hc : (st.nameCache.find? (fun p => p.1 == name)).isSome
  · have hcr : createRoom st name userId freshId
        = (st, CreateRes.failure "Room already exists") := by
      unfold createRoom
      rw [if_pos hvalid, if_pos hc]
    rw [hcr]
    exact ⟨rfl, rfl⟩
  · have hcr : createRoom st name userId freshId
        = ({ st with nameCache := (name, r.roomId) :: st.nameCache },
           CreateRes.failure "Room already exists") := by
      unfold createRoom
      rw [if_pos hvalid, if_neg hc, hex]
    rw [hcr]
    exact ⟨rfl, rfl⟩

/-- Witness for claim C3 (amended) with room lobby active but absent
from the local name cache. -/
theorem claim_C3_amended_witness :
    (handleCreateRoom ⟨[], [⟨"r1", "lobby", "u1", true, 1, 1, 0, 1⟩]⟩
      "lobby" "u2" "r9").2
      = some ⟨ErrCode.invalidMessage, "Room already exists", none⟩ ∧
    (handleCreateRoom ⟨[], [⟨"r1", "lobby", "u1", true, 1, 1, 0, 1⟩]⟩
      "lobby" "u2" "r9").1.db = [⟨"r1", "lobby", "u1", true, 1, 1, 0, 1⟩] :=
  claim_C3_amended _ "lobby" "u2" "r9" ⟨"r1", "lobby", "u1", true, 1, 1, 0, 1⟩
    (by decide) (by decide)

/-- Circuit-breaker modes from utils/circuitBreaker.js (CLOSED, OPEN,
HALF_OPEN). -/
inductive CBMode where
  | closed
  | opened
  | halfOpen
deriving DecidableEq, Repr

/-- Circuit-breaker state.  lastFailureTime starts at 0 for null (the
subtraction Date.now() minus null evaluates as if null were 0); the
request totals in this.metrics are not modelled since no transition
reads them. -/
structure CBSt where
  mode : CBMode
  failureCount : Nat
  successCount : Nat
  lastFailureTime : Nat
deriving DecidableEq, Repr

/-- Configuration: failureThreshold and resetTimeout (ms). -/
structure CBConfig where
  failureThreshold : Nat
  resetTimeout : Nat
deriving DecidableEq, Repr

/-- The breaker instance wrapping Redis:
new CircuitBreaker(failureThreshold 3, resetTimeout 30000). -/
def redisCBConfig : CBConfig := ⟨3, 30000⟩

/-- Fresh breaker state from the constructor. -/
def cbInit : CBSt := ⟨CBMode.closed, 0, 0, 0⟩

/-- CircuitBreaker.onSuccess: reset the consecutive-failure counter;
in HALF_OPEN also count the probe success and close after the third
(the literal threshold 3 in the source). -/
def onSuccess (st : CBSt) : CBSt :=
  let st1 := { st with failureCount := 0 }
  if st.mode = CBMode.halfOpen then
    let sc := st.successCount + 1
    if 3 ≤ sc then { st1 with successCount := sc, mode := CBMode.closed }
    else { st1 with successCount := sc }
  else st1

/-- CircuitBreaker.onFailure: count the failure, stamp its time, and
open once failureCount reaches the threshold. -/
def onFailure (cfg : CBConfig) (st : CBSt) (now : Nat) : CBSt :=
  let st1 := { st with failureCount := st.failureCount + 1, lastFailureTime := now }
  if cfg.failureThreshold ≤ st1.failureCount then { st1 with mode := CBMode.opened }
  else st1

/-- First half of CircuitBreaker.execute: in OPEN, either move to
HALF_OPEN (resetting successCount) when the cool-off has elapsed, or
short-circuit to the fallback.  Returns the state seen by the operation
and whether the call short-circuited. -/
def cbPhase1 (cfg : CBConfig) (st : CBSt) (now : Nat) : CBSt × Bool :=
  if st.mode = CBMode.opened then
    if cfg.resetTimeout ≤ now - st.lastFailureTime then
      ({ st with mode := CBMode.halfOpen, successCount := 0 }, false)
    else (st, true)
  else (st, false)

/-- CircuitBreaker.execute for an operation whose outcome is ok:
short-circuit per cbPhase1, otherwise run the operation and apply
onSuccess or onFailure.  The second component records whether the
operation was attempted. -/
def cbExecute (cfg : CBConfig) (st : CBSt) (now : Nat) (ok : Bool) : CBSt × Bool :=
  let p := cbPhase1 cfg st now
  if p.2 then (p.1, false)
  else if ok then (onSuccess p.1, true)
  else (onFailure cfg p.1 now, true)

/-- Claim C6, counterexample: drive the Redis breaker open with three
failures, let the cool-off pass, probe once successfully (entering
HALF_OPEN), then fail a probe: the breaker stays HALF_OPEN, so the
transition Half-Open to Open on any single probe failure does not hold. -/
theorem claim_C6_cex :
    ((cbExecute redisCBConfig
        (cbExecute redisCBConfig
          (cbExecute redisCBConfig
            (cbExecute redisCBConfig
              (cbExecute redisCBConfig cbInit 0 false).1 1 false).1
            2 false).1
          40000 true).1
        40001 false).1.mode = CBMode.halfOpen ∧
     (cbExecute redisCBConfig
        (cbExecute redisCBConfig
          (cbExecute redisCBConfig
            (cbExecute redisCBConfig cbInit 0 false).1 1 false).1
          2 false).1
        40000 true).1.mode = CBMode.halfOpen) ∧
    CBMode.halfOpen ≠ CBMode.opened := by
  exact ⟨⟨rfl, rfl⟩, by decide⟩

/-- Claim C6 (amended): the first three transitions hold as specified;
from Half-Open a probe failure reopens the breaker exactly when it
brings the consecutive-failure counter to the threshold 3, which covers
the first probe failure after entering Half-Open (the counter is
preserved at 3 or more while open) but not a probe failure that follows
a probe success (the success resets the counter). -/
theorem claim_C6_amended (st : CBSt) (t1 t2 t3 : Nat) :
    (st.mode = CBMode.closed → st.failureCount = 0 →
      ((cbExecute redisCBConfig
        ((cbExecute redisCBConfig
          ((cbExecute redisCBConfig st t1 false).1) t2 false).1) t3 false).1).mode
        = CBMode.opened) ∧
    (st.mode = CBMode.opened → st.lastFailureTime + 30000 ≤ t1 →
      (cbPhase1 redisCBConfig st t1).1.mode = CBMode.halfOpen ∧
      (cbPhase1 redisCBConfig st t1).2 = false) ∧
    (st.mode = CBMode.halfOpen → st.successCount = 0 →
      ((cbExecute redisCBConfig
        ((cbExecute redisCBConfig
          ((cbExecute redisCBConfig st t1 true).1) t2 true).1) t3 true).1).mode
        = CBMode.closed) ∧
    (st.mode = CBMode.halfOpen →
      (((cbExecute redisCBConfig st t1 false).1).mode = CBMode.opened ↔
        3 ≤ st.failureCount + 1)) ∧
    (st.mode = CBMode.opened → 3 ≤ st.failureCount →
      st.lastFailureTime + 30000 ≤ t1 →
      ((cbExecute redisCBConfig st t1 false).1).mode = CBMode.opened) := by
  obtain ⟨m, fc, sc, lf⟩ := st
  refine ⟨?_, ?_, ?_, ?_, ?_⟩
  · intro hm hfc
    simp only at hm hfc
    subst hm hfc
    simp [cbExecute, cbPhase1, onFailure, redisCBConfig]
  · intro hm helapsed
    simp only at hm
    subst hm
    dsimp only at helapsed
    have h : (30000 : Nat) ≤ t1 - lf := by omega
    simp [cbPhase1, redisCBConfig, h]
  · intro hm hsc
    simp only at hm hsc
    subst hm hsc
    simp [cbExecute, cbPhase1, onSuccess, redisCBConfig]
  · intro hm
    simp only at hm
    subst hm
    dsimp only
    by_cases h2 : 2 ≤ fc
    · have hres : ((cbExecute redisCBConfig
          (CBSt.mk CBMode.halfOpen fc sc lf) t1 false).1).mode = CBMode.opened := by
        simp [cbExecute, cbPhase1, onFailure, redisCBConfig, h2]
      exact ⟨fun _ => by omega, fun _ => hres⟩
    · have hres : ((cbExecute redisCBConfig
          (CBSt.mk CBMode.halfOpen fc sc lf) t1 false).1).mode = CBMode.halfOpen := by
        simp [cbExecute, cbPhase1, onFailure, redisCBConfig, h2]
      constructor
      · intro h
        rw [hres] at h
        simp at h
      · intro h3
        exact absurd (by omega : 2 ≤ fc) h2
  · intro hm hfc helapsed
    simp only at hm hfc
    subst hm
    dsimp only at helapsed
    have h : (30000 : Nat) ≤ t1 - lf := by omega
    have h2 : 2 ≤ fc := by omega
    simp [cbExecute, cbPhase1, onFailure, redisCBConfig, h, h2]

/-- Witness for claim C6 (amended) at a fresh breaker and probe times
0, 1, 2. -/
theorem claim_C6_amended_witness :
    ((CBSt.mk CBMode.closed 0 0 0).mode = CBMode.closed →
      (CBSt.mk CBMode.closed 0 0 0).failureCount = 0 →
      ((cbExecute redisCBConfig
        ((cbExecute redisCBConfig
          ((cbExecute redisCBConfig (CBSt.mk CBMode.closed 0 0 0) 0 false).1) 1 false).1)
        2 false).1).mode = CBMode.opened) ∧
    ((CBSt.mk CBMode.closed 0 0 0).mode = CBMode.opened →
      (CBSt.mk CBMode.closed 0 0 0).lastFailureTime + 30000 ≤ 0 →
      (cbPhase1 redisCBConfig (CBSt.mk CBMode.closed 0 0 0) 0).1.mode = CBMode.halfOpen ∧
      (cbPhase1 redisCBConfig (CBSt.mk CBMode.closed 0 0 0) 0).2 = false) ∧
    ((CBSt.mk CBMode.closed 0 0 0).mode = CBMode.halfOpen →
      (CBSt.mk CBMode.closed 0 0 0).successCount = 0 →
      ((cbExecute redisCBConfig
        ((cbExecute redisCBConfig
          ((cbExecute redisCBConfig (CBSt.mk CBMode.closed 0 0 0) 0 true).1) 1 true).1)
        2 true).1).mode = CBMode.closed) ∧
    ((CBSt.mk CBMode.closed 0 0 0).mode = CBMode.halfOpen →
      (((cbExecute redisCBConfig (CBSt.mk CBMode.closed 0 0 0) 0 false).1).mode
          = CBMode.opened ↔
        3 ≤ (CBSt.mk CBMode.closed 0 0 0).failureCount + 1)) ∧
    ((CBSt.mk CBMode.closed 0 0 0).mode = CBMode.opened →
      3 ≤ (CBSt.mk CBMode.closed 0 0 0).failureCount →
      (CBSt.mk CBMode.closed 0 0 0).lastFailureTime + 30000 ≤ 0 →
      ((cbExecute redisCBConfig (CBSt.mk CBMode.closed 0 0 0) 0 false).1).mode
        = CBMode.opened) :=
  claim_C6_amended (CBSt.mk CBMode.closed 0 0 0) 0 1 2

/-- Lookup in an association list standing for a JS Map. -/
def alistLookup (m : List (String × α)) (k : String) : Option α :=
  (m.find? (fun p => p.1 == k)).map (fun p => p.2)

/-- Map.set: replace any binding of k by the new value. -/
def alistInsert (m : List (String × α)) (k : String) (v : α) : List (String × α) :=
  (k, v) :: m.filter (fun p => p.1 != k)

/-- Map.delete. -/
def alistRemove (m : List (String × α)) (k : String) : List (String × α) :=
  m.filter (fun p => p.1 != k)

/-- Set.add on a JS Set represented as a duplicate-free list. -/
def strInsert (s : List String) (x : String) : List String :=
  if x ∈ s then s else s ++ [x]

/-- Set.delete. -/
def strRemove (s : List String) (x : String) : List String :=
  s.filter (fun y => y != x)

/-- State of CacheManager (utils/cacheManager.js): the local tier with
absolute expiry times, the shared Redis tier (TTL on the shared tier is
not modelled since no claim reads it after expiry), and the two
dependency maps.  The hit/miss counters are not modelled. -/
structure CacheSt where
  localCache : List (String × (String × Nat))
  redisKV : List (String × String)
  deps : List (String × List String)
  rdeps : List (String × List String)
deriving DecidableEq, Repr

/-- CacheManager.trackDependencies: for each dependency d of key,
record d in dependencies(key) and key in reverseDependencies(d). -/
def trackDependencies (st : CacheSt) (key : String) (ds : List String) : CacheSt :=
  if ds = [] then st
  else ds.foldl (fun s d =>
    let kd := strInsert ((alistLookup s.deps key).getD []) d
    let rd := strInsert ((alistLookup s.rdeps d).getD []) key
    { s with deps := alistInsert s.deps key kd,
             rdeps := alistInsert s.rdeps d rd }) st

/-- CacheManager.set: write the shared tier, write the local tier with
ttl seconds capped at 300000 ms, then track the dependencies. -/
def setOp (st : CacheSt) (key value : String) (ttl now : Nat) (ds : List String) :
    CacheSt :=
  let st1 := { st with redisKV := alistInsert st.redisKV key value }
  let st2 := { st1 with
    localCache := alistInsert st1.localCache key (value, now + min (ttl * 1000) 300000) }
  trackDependencies st2 key ds

/-- CacheManager.cleanupDependencies: drop key from both maps, pruning
entries that become empty. -/
def cleanupDependencies (st : CacheSt) (key : String) : CacheSt :=
  let stA :=
    match alistLookup st.deps key with
    | some ds =>
      let st1 := ds.foldl (fun s dep =>
        match alistLookup s.rdeps dep with
        | some rs =>
          let rs2 := strRemove rs key
          if rs2 = [] then { s with rdeps := alistRemove s.rdeps dep }
          else { s with rdeps := alistInsert s.rdeps dep rs2 }
        | none => s) st
      { st1 with deps := alistRemove st1.deps key }
    | none => st
  match alistLookup stA.rdeps key with
  | some rs =>
    let st2 := rs.foldl (fun s rk =>
      match alistLookup s.deps rk with
      | some kds =>
        let kds2 := strRemove kds key
        if kds2 = [] then { s with deps := alistRemove s.deps rk }
        else { s with deps := alistInsert s.deps rk kds2 }
      | none => s) stA
    { st2 with rdeps := alistRemove st2.rdeps key }
  | none => stA

/-- Delete key from both cache tiers (the first two statements of
CacheManager.invalidate). -/
def cacheDelete (st : CacheSt) (key : String) : CacheSt :=
  { st with localCache := alistRemove st.localCache key,
            redisKV := alistRemove st.redisKV key }

/-- CacheManager.invalidate with cascade false. -/
def invalidateNoCascade (st : CacheSt) (key : String) : CacheSt :=
  cleanupDependencies (cacheDelete st key) key

/-- CacheManager.invalidate with cascade true: after deleting key from
both tiers, the cascade iterates this.dependencies.get(key), the
dependencies OF key, not this.reverseDependencies.get(key), the keys
depending on key, and invalidates those without cascade; then the
dependency records of key are cleaned up. -/
def invalidateCascade (st : CacheSt) (key : String) : CacheSt :=
  let st1 := cacheDelete st key
  let dependents := (alistLookup st1.deps key).getD []
  let st2 := dependents.foldl invalidateNoCascade st1
  cleanupDependencies st2 key

/-- CacheManager.get without a loader: consult the unexpired local
tier first, then the shared tier (the local backfill performed on a
shared-tier hit does not change the returned value). -/
def getOp (st : CacheSt) (key : String) (now : Nat) : Option String :=
  match alistLookup st.localCache key with
  | some (v, exp) => if now < exp then some v else alistLookup st.redisKV key
  | none => alistLookup st.redisKV key

/-- Claim C4: set("k", "v", ttl 300, deps ["d"]) followed by
invalidate("d") with cascade leaves get("k") returning the cached "v":
the cascade consults dependencies.get("d"), which is empty, instead of
reverseDependencies.get("d"), which holds "k", so the dependent entry
survives in both tiers.  The claim (and 4.1 of the spec) requires "k"
to be transitively invalidated. -/
theorem claim_C4 :
    getOp (invalidateCascade (setOp ⟨[], [], [], []⟩ "k" "v" 300 0 ["d"]) "d")
      "k" 0 = some "v" := by
  decide

/-- Limiter class parameters (points, duration seconds, blockDuration
seconds) as passed to RateLimiterMemory in middleware/RateLimiter.js. -/
structure RLConfig where
  points : Nat
  duration : Nat
  blockDuration : Nat
deriving DecidableEq, Repr

/-- Per-identifier limiter state: points consumed in the current fixed
window, the window end and the block end (absolute ms). -/
structure RLSt where
  consumed : Nat
  windowEnd : Nat
  blockedUntil : Nat
deriving DecidableEq, Repr

/-- Fresh limiter state for an identifier never seen. -/
def rlInit : RLSt := ⟨0, 0, 0⟩

/-- Modelled from the spec: RateLimiterMemory of rate-limiter-flexible
is a third-party dependency whose code is not in the repository.  Spec
4.3 describes per-identifier buckets parameterized by points, refill
seconds and block seconds where check atomically consumes one point
and on deplete reports the wait: a consume during a block is rejected
with the remaining block time; a consume in a fresh window starts the
window; exceeding points blocks the identifier for blockDuration and
reports blockDuration as msBeforeNext. -/
def rlConsume (cfg : RLConfig) (st : RLSt) (now : Nat) : RLSt × Option Nat :=
  if now < st.blockedUntil then (st, some (st.blockedUntil - now))
  else
    let stw := if st.windowEnd ≤ now then
        RLSt.mk 0 (now + cfg.duration * 1000) st.blockedUntil
      else st
    if cfg.points < stw.consumed + 1 then
      (⟨stw.consumed + 1, stw.windowEnd, now + cfg.blockDuration * 1000⟩,
       some (cfg.blockDuration * 1000))
    else (⟨stw.consumed + 1, stw.windowEnd, stw.blockedUntil⟩, none)

/-- Outcome of RateLimiter.checkLimit. -/
inductive CheckRes where
  | allowed
  | limited (retryAfter : Nat)
deriving DecidableEq, Repr

/-- The four limiter instances built in the RateLimiter constructor
from CONSTANTS.RATE_LIMIT_MESSAGES, CONSTANTS.RATE_LIMIT_ROOMS and the
literal command and connection parameters, keyed by frame type as in
the checkLimit switch; unknown types have no limiter and pass. -/
def limiterConfigFor (t : String) : Option RLConfig :=
  if t = "send_message" then some ⟨10, 1, 60⟩
  else if t = "create_room" then some ⟨5, 3600, 3600⟩
  else if t = "command" then some ⟨10, 60, 60⟩
  else if t = "connection" then some ⟨10, 60, 300⟩
  else none

/-- The retryAfter computed in checkLimit's catch branch:
Math.round(msBeforeNext / 1000) || 60. -/
def retryAfterOf (ms : Nat) : Nat :=
  let r := (ms + 500) / 1000
  if r = 0 then 60 else r

/-- RateLimiter.checkLimit for one identifier of the class keyed by t. -/
def checkLimit (t : String) (st : RLSt) (now : Nat) : RLSt × CheckRes :=
  match limiterConfigFor t with
  | none => (st, CheckRes.allowed)
  | some cfg =>
    match rlConsume cfg st now with
    | (st2, none) => (st2, CheckRes.allowed)
    | (st2, some ms) => (st2, CheckRes.limited (retryAfterOf ms))

/-- The error frame produced for a rejected frame by the instrumented
message loop: RateLimitError("Rate limit exceeded", retryAfter), whose
toJSON carries code RATE_LIMIT and the retryAfter field. -/
def limiterFrame : CheckRes → Option ErrorFrame
  | CheckRes.allowed => none
  | CheckRes.limited r => some ⟨ErrCode.rateLimit, "Rate limit exceeded", some r⟩

/-- Run checkLimit for a sequence of send_message frames from one
identifier arriving at the given times. -/
def runLimiter : RLSt → List Nat → List CheckRes
  | _, [] => []
  | st, n :: ns =>
    (checkLimit "send_message" st n).2 ::
      runLimiter (checkLimit "send_message" st n).1 ns

/-- One allowed send_message consume inside an open window. -/
theorem checkMsg_allowed (k t0 n : Nat) (hlt : k < 10) (hn : n < t0 + 1000) :
    checkLimit "send_message" ⟨k, t0 + 1000, 0⟩ n
      = (⟨k + 1, t0 + 1000, 0⟩, CheckRes.allowed) := by
  unfold checkLimit limiterConfigFor rlConsume
  simp [Nat.not_le.mpr hn, Nat.not_lt.mpr (by omega : k + 1 ≤ 10)]

/-- The depleting send_message consume inside an open window. -/
theorem checkMsg_limited (t0 n : Nat) (hn : n < t0 + 1000) :
    checkLimit "send_message" ⟨10, t0 + 1000, 0⟩ n
      = (⟨11, t0 + 1000, n + 60000⟩, CheckRes.limited 60) := by
  unfold checkLimit limiterConfigFor rlConsume retryAfterOf
  simp [Nat.not_le.mpr hn]

/-- The first send_message consume of a fresh identifier. -/
theorem checkMsg_first (t0 : Nat) :
    checkLimit "send_message" ⟨0, 0, 0⟩ t0
      = (⟨1, t0 + 1000, 0⟩, CheckRes.allowed) := by
  unfold checkLimit limiterConfigFor rlConsume
  simp

/-- Processing the remaining frames of a window that already holds k
consumed points yields allowed up to the tenth point and limited 60 on
the eleventh. -/
theorem runLimiter_window (t0 : Nat) :
    ∀ (ns : List Nat) (k : Nat),
      (∀ x ∈ ns, x < t0 + 1000) → k + ns.length = 11 → 1 ≤ k → k ≤ 10 →
      runLimiter ⟨k, t0 + 1000, 0⟩ ns
        = List.replicate (10 - k) CheckRes.allowed ++ [CheckRes.limited 60] := by
  intro ns
  induction ns with
  | nil =>
    intro k _ hlen _ hk10
    simp at hlen
    omega
  | cons n ns ih =>
    intro k h hlen hk1 hk10
    have hn : n < t0 + 1000 := h n (List.mem_cons_self n ns)
    by_cases hky : k = 10
    · subst hky
      have hns : ns = [] := List.eq_nil_of_length_eq_zero (by simp at hlen; omega)
      subst hns
      simp only [runLimiter, checkMsg_limited t0 n hn]
      simp
    · have hklt : k < 10 := by omega
      simp only [runLimiter, checkMsg_allowed k t0 n hklt hn]
      rw [ih (k + 1) (fun x hx => h x (List.mem_cons_of_mem n hx))
        (by simp at hlen ⊢; omega) (by omega) (by omega)]
      have : 10 - k = (10 - (k + 1)) + 1 := by omega
      rw [this, List.replicate_succ]
      simp

/-- Claim C7: eleven send_message frames from one address inside one
second: the first ten pass the rate check and the eleventh is answered
with an error frame of code RATE_LIMIT whose retryAfter is 60, at
least 1 (the block duration of the message class is 60 s). -/
theorem claim_C7 (t0 : Nat) (ns : List Nat) (hlen : ns.length = 10)
    (h : ∀ x ∈ ns, t0 ≤ x ∧ x < t0 + 1000) :
    runLimiter rlInit (t0 :: ns)
      = List.replicate 10 CheckRes.allowed ++ [CheckRes.limited 60] ∧
    limiterFrame (CheckRes.limited 60)
      = some ⟨ErrCode.rateLimit, "Rate limit exceeded", some 60⟩ ∧
    1 ≤ 60 := by
  refine ⟨?_, rfl, by omega⟩
  unfold rlInit
  simp only [runLimiter, checkMsg_first t0]
  rw [runLimiter_window t0 ns 1 (fun x hx => (h x hx).2) (by omega) (by omega)
    (by omega)]
  have h9 : (10 : Nat) - 1 = 9 := by omega
  rw [h9]
  have h10 : (10 : Nat) = 9 + 1 := by omega
  rw [h10, List.replicate_succ]
  simp

/-- Witness for claim C7 with all eleven frames at the same instant. -/
theorem claim_C7_witness :
    runLimiter rlInit [5, 5, 5, 5, 5, 5, 5, 5, 5, 5, 5]
      = List.replicate 10 CheckRes.allowed ++ [CheckRes.limited 60] ∧
    limiterFrame (CheckRes.limited 60)
      = some ⟨ErrCode.rateLimit, "Rate limit exceeded", some 60⟩ ∧
    1 ≤ 60 :=
  claim_C7 5 [5, 5, 5, 5, 5, 5, 5, 5, 5, 5] (by decide)
    (by intro x hx; fin_cases hx <;> omega)

/-- The Redis set room:id:typing with its pending expiry: absent, or
present with its members and absolute expiry time in ms (EXPIRE key 3
from CONSTANTS.TYPING_INDICATOR_TTL seconds). -/
def TypSt := Option (List String × Nat)

/-- SMEMBERS at the given time: an expired or absent key reads as the
empty set. -/
def typingRead (st : TypSt) (now : Nat) : List String :=
  match st with
  | none => []
  | some (ms, exp) => if now < exp then ms else []

/-- RoomService.handleTypingIndicator with isTyping true: SADD the user
(creating the key if absent or expired) then EXPIRE the key to 3 s from
now.  The TTL is keyed on the whole set, so it is refreshed for every
member. -/
def typingStart (st : TypSt) (u : String) (now : Nat) : TypSt :=
  let ms :=
    match st with
    | some (ms, exp) => if now < exp then (if u ∈ ms then ms else ms ++ [u]) else [u]
    | none => [u]
  some (ms, now + 3000)

/-- RoomService.handleTypingIndicator with isTyping false: SREM the
user; the expiry of the key is not touched. -/
def typingStop (st : TypSt) (u : String) (now : Nat) : TypSt :=
  match st with
  | some (ms, exp) =>
    if now < exp then some (ms.filter (fun y => y != u), exp) else none
  | none => none

/-- A typing_start or typing_stop frame routed to
RoomService.handleTypingIndicator, with its arrival time. -/
inductive TypEvent where
  | start (u : String) (t : Nat)
  | stop (u : String) (t : Nat)
deriving DecidableEq, Repr

/-- Apply one typing event to the room's typing-set state. -/
def applyTypEvent (st : TypSt) : TypEvent → TypSt
  | TypEvent.start u t => typingStart st u t
  | TypEvent.stop u t => typingStop st u t

/-- Apply a history of typing events in order. -/
def applyTypEvents (st : TypSt) (evs : List TypEvent) : TypSt :=
  evs.foldl applyTypEvent st

/-- Claim C8, counterexample: user u sends typing_start at t = 0 and
nothing afterwards; user v sends typing_start at t = 2000, which
refreshes the TTL of the shared set key; the typing list computed at
t = 4000, more than 3 s after u's typing_start, still contains u. -/
theorem claim_C8_cex :
    "u" ∈ typingRead
      (applyTypEvents (none : TypSt)
        [TypEvent.start "u" 0, TypEvent.start "v" 2000]) 4000 ∧
    3000 < 4000 := by
  constructor
  · show "u" ∈ typingRead (some (["u", "v"], 5000)) 4000
    decide
  · omega

/-- Claim C8 (amended): the 3-second expiry applies to the whole room
typing set and every typing_start refreshes it, so a user who sends
typing_start and then nothing is guaranteed absent only from lists
computed at least 3 s after the last typing_start in the room by any
user: by then the key has expired and the list is empty. -/
theorem claim_C8_amended (evs : List TypEvent) (lastStart now : Nat)
    (hstart : ∀ u t, TypEvent.start u t ∈ evs → t ≤ lastStart)
    (hnow : lastStart + 3000 ≤ now) :
    typingRead (applyTypEvents (none : TypSt) evs) now = [] := by
  have key : ∀ (st : TypSt) (evs2 : List TypEvent),
      (∀ u t, TypEvent.start u t ∈ evs2 → t ≤ lastStart) →
      (st = none ∨ ∃ ms exp, st = some (ms, exp) ∧ exp ≤ lastStart + 3000) →
      (applyTypEvents st evs2 = none ∨
        ∃ ms exp, applyTypEvents st evs2 = some (ms, exp) ∧
          exp ≤ lastStart + 3000) := by
    intro st evs2
    induction evs2 generalizing st with
    | nil => intro _ hst; exact hst
    | cons e rest ih =>
      intro hst hinv
      have hstep : applyTypEvent st e = none ∨
          ∃ ms exp, applyTypEvent st e = some (ms, exp) ∧
            exp ≤ lastStart + 3000 := by
        cases e with
        | start u t =>
          have ht : t ≤ lastStart := hst u t (List.mem_cons_self _ _)
          right
          cases st with
          | none => exact ⟨[u], t + 3000, rfl, by omega⟩
          | some p =>
            obtain ⟨ms, exp⟩ := p
            by_cases hlive : t < exp
            · by_cases hu : u ∈ ms
              · exact ⟨ms, t + 3000, by simp [applyTypEvent, typingStart, hlive, hu],
                  by omega⟩
              · exact ⟨ms ++ [u], t + 3000,
                  by simp [applyTypEvent, typingStart, hlive, hu], by omega⟩
            · exact ⟨[u], t + 3000, by simp [applyTypEvent, typingStart, hlive],
                by omega⟩
        | stop u t =>
          cases st with
          | none => left; rfl
          | some p =>
            obtain ⟨ms, exp⟩ := p
            have hexp : exp ≤ lastStart + 3000 := by
              rcases hinv with hn | ⟨ms2, exp2, heq, hexp2⟩
              · exact absurd hn (Option.some_ne_none _)
              · cases heq
                exact hexp2
            by_cases hlive : t < exp
            · right
              exact ⟨ms.filter (fun y => y != u), exp,
                by simp [applyTypEvent, typingStop, hlive], hexp⟩
            · left
              simp [applyTypEvent, typingStop, hlive]
      have hrest : ∀ u t, TypEvent.start u t ∈ rest → t ≤ lastStart :=
        fun u t hm => hst u t (List.mem_cons_of_mem _ hm)
      have : applyTypEvents st (e :: rest)
          = applyTypEvents (applyTypEvent st e) rest := rfl
      rw [this]
      exact ih (applyTypEvent st e) hrest hstep
  rcases key none evs hstart (Or.inl rfl) with hn | ⟨ms, exp, heq, hexp⟩
  · rw [hn]; rfl
  · rw [heq]
    have hlt : ¬ now < exp := by omega
    simp [typingRead, hlt]

/-- Witness for claim C8 (amended) at the counterexample history read
after the refreshed expiry. -/
theorem claim_C8_amended_witness :
    typingRead
      (applyTypEvents (none : TypSt)
        [TypEvent.start "u" 0, TypEvent.start "v" 2000]) 5000 = [] :=
  claim_C8_amended [TypEvent.start "u" 0, TypEvent.start "v" 2000] 2000 5000
    (by
      intro u t hm
      fin_cases hm <;> omega)
    (by omega)

/-- The apostrophe character. -/
def apoChar : Char := Char.ofNat 39

/-- The double-quote character. -/
def quoteChar : Char := Char.ofNat 34

/-- The backquote character. -/
def backquoteChar : Char := Char.ofNat 96

/-- ASCII lowering, the effect of the case-insensitive regex flag on
the all-ASCII patterns of utils/validator.js. -/
def asciiLower (c : Char) : Char :=
  if 65 ≤ c.toNat ∧ c.toNat ≤ 90 then Char.ofNat (c.toNat + 32) else c

/-- Case-insensitive prefix test on character lists. -/
def isPrefixCI (pat s : List Char) : Bool :=
  (pat.map asciiLower).isPrefixOf (s.map asciiLower)

/-- Global regex replacement by the empty string: scan left to right;
where the probe reports a match of length n, drop it and continue after
it (matches are non-overlapping and the replaced output is not
rescanned, as with String.prototype.replace under the g flag).  The
fuel argument bounds recursion; callers pass at least the input length
plus one, and probes report only positive lengths. -/
def scanRemove (probe : List Char → Option Nat) : Nat → List Char → List Char
  | 0, s => s
  | _ + 1, [] => []
  | f + 1, c :: rest =>
    match probe (c :: rest) with
    | some n => scanRemove probe f ((c :: rest).drop (n.max 1))
    | none => c :: scanRemove probe f rest

/-- Probe for a literal pattern under the i flag (javascript:,
vbscript:, onload=, onerror=, onclick=, onmouseover=). -/
def tryLit (pat s : List Char) : Option Nat :=
  if isPrefixCI pat s then some pat.length else none

/-- Probe for a lazy tag pattern such as script tags with arbitrary
content: the open literal, then lazily any characters to the first
closing angle bracket, then lazily any characters to the first
occurrence of the close literal.  Because the lazy quantifiers only
need some completion to exist, the match (when the open literal is
present) runs to the first close literal that starts after the first
angle bracket following the open literal; if the first angle bracket
has no close literal after it, no later one has either, so the probe
fails. -/
def tryTag (openP closeP s : List Char) : Option Nat :=
  if isPrefixCI openP s then
    let rest := s.drop openP.length
    match rest.findIdx? (fun c => c == '>') with
    | none => none
    | some j =>
      let rest2 := rest.drop (j + 1)
      match (List.range (rest2.length + 1)).find?
          (fun i => isPrefixCI closeP (rest2.drop i)) with
      | none => none
      | some k => some (openP.length + j + 1 + k + closeP.length)
  else none

/-- One sanitized.replace(pattern, "") pass. -/
def stripPat (probe : List Char → Option Nat) (s : List Char) : List Char :=
  scanRemove probe (s.length + 1) s

/-- The xssPatterns passes of Validator.sanitizeContent, in source
order. -/
def xssStrip (s : List Char) : List Char :=
  let s1 := stripPat (tryTag ("<script".toList) ("</script>".toList)) s
  let s2 := stripPat (tryTag ("<iframe".toList) ("</iframe>".toList)) s1
  let s3 := stripPat (tryLit ("javascript:".toList)) s2
  let s4 := stripPat (tryLit ("vbscript:".toList)) s3
  let s5 := stripPat (tryLit ("onload=".toList)) s4
  let s6 := stripPat (tryLit ("onerror=".toList)) s5
  let s7 := stripPat (tryLit ("onclick=".toList)) s6
  let s8 := stripPat (tryLit ("onmouseover=".toList)) s7
  let s9 := stripPat (tryTag ("<object".toList) ("</object>".toList)) s8
  stripPat (tryTag ("<embed".toList) ("</embed>".toList)) s9

/-- Regex word characters, for the word boundaries of the keyword
pattern. -/
def isWordChar (c : Char) : Bool :=
  (97 ≤ c.toNat && c.toNat ≤ 122) || (65 ≤ c.toNat && c.toNat ≤ 90) ||
  (48 ≤ c.toNat && c.toNat ≤ 57) || c == '_'

/-- Whole-word case-insensitive occurrence of the keyword k in s, with
a word boundary on both sides. -/
def kwHit (k s : List Char) : Bool :=
  (List.range (s.length + 1)).any (fun i =>
    isPrefixCI k (s.drop i) &&
    (i == 0 || !(isWordChar (s.getD (i - 1) ' '))) &&
    !(isWordChar (s.getD (i + k.length) ' ')))

/-- The keyword alternation of the first SQL pattern.  EXEC(UTE)? is
the two whole words EXEC and EXECUTE; the optional space-INTO group of
INSERT and space-ALL group of UNION cannot extend a match that the bare
keyword with its trailing word boundary would not already give (the
optional group starts with a space, which is itself a boundary), so for
the existence test the bare keywords suffice. -/
def sqlKeywords : List (List Char) :=
  ["ALTER".toList, "CREATE".toList, "DELETE".toList, "DROP".toList,
   "EXEC".toList, "EXECUTE".toList, "INSERT".toList, "MERGE".toList,
   "SELECT".toList, "UPDATE".toList, "UNION".toList]

/-- Case-insensitive substring test. -/
def containsCI (pat s : List Char) : Bool :=
  decide ((pat.map asciiLower) <:+: (s.map asciiLower))

/-- The sqlInjectionPatterns test of Validator.sanitizeContent: the
keyword pattern, the comment and semicolon pattern, the quote and
punctuation pattern (the backslash-quote alternative is listed as in
the source although the bare quote subsumes it), and the xp_, sp_,
admin pattern. -/
def hasSql (s : List Char) : Bool :=
  sqlKeywords.any (fun k => kwHit k s) ||
  (decide (("--".toList : List Char) <:+: s) ||
   decide (("/*".toList : List Char) <:+: s) ||
   decide (("*/".toList : List Char) <:+: s) ||
   s.contains ';') ||
  (s.contains apoChar ||
   decide (([Char.ofNat 92, apoChar] : List Char) <:+: s) ||
   s.contains ';' || s.contains ',' || s.contains '>' || s.contains '<') ||
  (containsCI "xp_".toList s || containsCI "sp_".toList s ||
   containsCI "admin".toList s)

/-- The htmlEntities escape of one character, applied by the character
class replace of Validator.sanitizeContent. -/
def escapeChar (c : Char) : List Char :=
  if c = '<' then "&lt;".toList
  else if c = '>' then "&gt;".toList
  else if c = quoteChar then "&quot;".toList
  else if c = apoChar then "&#x27;".toList
  else if c = '/' then "&#x2F;".toList
  else if c = '&' then "&amp;".toList
  else if c = backquoteChar then "&#x60;".toList
  else if c = '=' then "&#x3D;".toList
  else [c]

/-- The character-class escape pass. -/
def escapeHtml (s : List Char) : List Char :=
  (s.map escapeChar).flatten

/-- The stripped control bytes 0x00-0x08, 0x0B, 0x0C, 0x0E-0x1F, 0x7F. -/
def isCtrlStrip (c : Char) : Bool :=
  c.toNat ≤ 8 || c.toNat == 11 || c.toNat == 12 ||
  (14 ≤ c.toNat && c.toNat ≤ 31) || c.toNat == 127

/-- The control-byte strip pass. -/
def ctrlStrip (s : List Char) : List Char :=
  s.filter (fun c => !(isCtrlStrip c))

/-- The whitespace-collapse pass: a maximal run of three or more
whitespace characters becomes two spaces (greedy match of the
three-or-more quantifier). -/
def collapseWs : Nat → List Char → List Char
  | 0, s => s
  | _ + 1, [] => []
  | f + 1, c :: cs =>
    if isJsWs c then
      (if 3 ≤ (c :: cs.takeWhile isJsWs).length then [' ', ' ']
       else c :: cs.takeWhile isJsWs) ++ collapseWs f (cs.dropWhile isJsWs)
    else c :: collapseWs f cs

/-- String.prototype.trim. -/
def trimWs (s : List Char) : List Char :=
  ((s.dropWhile isJsWs).reverse.dropWhile isJsWs).reverse

/-- Validator.sanitizeContent on a string: strip the XSS patterns,
throw (none) when the result matches the SQL deny list, then escape,
strip control bytes, collapse whitespace runs and trim. -/
def sanitizeContent (s : List Char) : Option (List Char) :=
  let s1 := xssStrip s
  if hasSql s1 then none
  else
    let s2 := ctrlStrip (escapeHtml s1)
    some (trimWs (collapseWs (s2.length + 1) s2))

/-- Claim C5, counterexample: sanitizeContent accepts the one-character
string of a double quote and returns the entity text, but the entity
text contains a semicolon, which the second SQL pattern rejects, so
applying sanitizeContent to its own output throws instead of returning
the same string. -/
theorem claim_C5_cex :
    sanitizeContent [quoteChar] = some ("&quot;".toList) ∧
    sanitizeContent ("&quot;".toList) = none ∧
    (sanitizeContent [quoteChar]).bind sanitizeContent
      ≠ sanitizeContent [quoteChar] := by
  refine ⟨by decide, by decide, by decide⟩

/-- The alphabet of the restricted idempotence statement: ASCII
letters, digits, underscore, hyphen and space. -/
def safeChars : List Char :=
  "abcdefghijklmnopqrstuvwxyzABCDEFGHIJKLMNOPQRSTUVWXYZ0123456789_- ".toList

/-- A probe that fails on every safe string makes the replacement pass
the identity on safe strings. -/
theorem scanRemove_id (probe : List Char → Option Nat)
    (hnone : ∀ t : List Char, (∀ c ∈ t, c ∈ safeChars) → probe t = none) :
    ∀ (fuel : Nat) (s : List Char), (∀ c ∈ s, c ∈ safeChars) →
      scanRemove probe fuel s = s := by
  intro fuel
  induction fuel with
  | zero => intro s _; rfl
  | succ f ih =>
    intro s hs
    cases s with
    | nil => rfl
    | cons c rest =>
      simp only [scanRemove, hnone (c :: rest) hs]
      rw [ih rest (fun x hx => hs x (List.mem_cons_of_mem c hx))]

/-- A pattern holding a character whose lowering no safe character
lowers to is never a case-insensitive prefix of a safe string. -/
theorem isPrefixCI_eq_false (pat t : List Char) (p : Char)
    (hp : p ∈ pat) (hbad : ∀ c ∈ safeChars, asciiLower c ≠ asciiLower p)
    (ht : ∀ c ∈ t, c ∈ safeChars) : isPrefixCI pat t = false := by
  cases hh : isPrefixCI pat t
  · rfl
  · exfalso
    have hpre : (pat.map asciiLower) <+: (t.map asciiLower) :=
      List.isPrefixOf_iff_prefix.mp hh
    have hmem : asciiLower p ∈ t.map asciiLower :=
      hpre.subset (List.mem_map_of_mem asciiLower hp)
    rcases List.mem_map.mp hmem with ⟨c, hc, hceq⟩
    exact hbad c (ht c hc) hceq

/-- Literal probes whose pattern holds an unreachable character fail on
safe strings. -/
theorem tryLit_none (pat t : List Char) (p : Char) (hp : p ∈ pat)
    (hbad : ∀ c ∈ safeChars, asciiLower c ≠ asciiLower p)
    (ht : ∀ c ∈ t, c ∈ safeChars) : tryLit pat t = none := by
  simp [tryLit, isPrefixCI_eq_false pat t p hp hbad ht]

/-- Tag probes fail on safe strings: the open literal starts with an
angle bracket, which no safe character matches. -/
theorem tryTag_none (openP closeP t : List Char) (p : Char) (hp : p ∈ openP)
    (hbad : ∀ c ∈ safeChars, asciiLower c ≠ asciiLower p)
    (ht : ∀ c ∈ t, c ∈ safeChars) : tryTag openP closeP t = none := by
  simp [tryTag, isPrefixCI_eq_false openP t p hp hbad ht]

/-- No safe character lowers to the opening angle bracket. -/
theorem safeNoLt : ∀ c ∈ safeChars, asciiLower c ≠ asciiLower '<' := by decide

/-- No safe character lowers to the colon. -/
theorem safeNoColon : ∀ c ∈ safeChars, asciiLower c ≠ asciiLower ':' := by decide

/-- No safe character lowers to the equals sign. -/
theorem safeNoEq : ∀ c ∈ safeChars, asciiLower c ≠ asciiLower '=' := by decide

/-- The XSS passes leave safe strings unchanged. -/
theorem xssStrip_id (s : List Char) (hs : ∀ c ∈ s, c ∈ safeChars) :
    xssStrip s = s := by
  simp only [xssStrip, stripPat]
  rw [scanRemove_id _ (fun t ht =>
        tryTag_none ("<script".toList) ("</script>".toList) t '<' (by decide)
          safeNoLt ht) _ s hs,
      scanRemove_id _ (fun t ht =>
        tryTag_none ("<iframe".toList) ("</iframe>".toList) t '<' (by decide)
          safeNoLt ht) _ s hs,
      scanRemove_id _ (fun t ht =>
        tryLit_none ("javascript:".toList) t ':' (by decide) safeNoColon ht)
        _ s hs,
      scanRemove_id _ (fun t ht =>
        tryLit_none ("vbscript:".toList) t ':' (by decide) safeNoColon ht)
        _ s hs,
      scanRemove_id _ (fun t ht =>
        tryLit_none ("onload=".toList) t '=' (by decide) safeNoEq ht) _ s hs,
      scanRemove_id _ (fun t ht =>
        tryLit_none ("onerror=".toList) t '=' (by decide) safeNoEq ht) _ s hs,
      scanRemove_id _ (fun t ht =>
        tryLit_none ("onclick=".toList) t '=' (by decide) safeNoEq ht) _ s hs,
      scanRemove_id _ (fun t ht =>
        tryLit_none ("onmouseover=".toList) t '=' (by decide) safeNoEq ht)
        _ s hs,
      scanRemove_id _ (fun t ht =>
        tryTag_none ("<object".toList) ("</object>".toList) t '<' (by decide)
          safeNoLt ht) _ s hs,
      scanRemove_id _ (fun t ht =>
        tryTag_none ("<embed".toList) ("</embed>".toList) t '<' (by decide)
          safeNoLt ht) _ s hs]

/-- Safe characters are not escaped. -/
theorem safeEscape : ∀ c ∈ safeChars, escapeChar c = [c] := by decide

/-- The escape pass leaves safe strings unchanged. -/
theorem escapeHtml_id (s : List Char) (hs : ∀ c ∈ s, c ∈ safeChars) :
    escapeHtml s = s := by
  induction s with
  | nil => rfl
  | cons c cs ih =>
    have hc : escapeChar c = [c] := safeEscape c (hs c (List.mem_cons_self c cs))
    have ht : escapeHtml cs = cs :=
      ih (fun x hx => hs x (List.mem_cons_of_mem c hx))
    simp only [escapeHtml, List.map_cons, List.flatten_cons, hc] at ht ⊢
    rw [ht]
    rfl

/-- Safe characters are not stripped control bytes. -/
theorem safeNotCtrl : ∀ c ∈ safeChars, isCtrlStrip c = false := by decide

/-- The control-strip pass leaves safe strings unchanged. -/
theorem ctrlStrip_id (s : List Char) (hs : ∀ c ∈ s, c ∈ safeChars) :
    ctrlStrip s = s :=
  List.filter_eq_self.mpr (fun c hc => by
    rw [safeNotCtrl c (hs c hc)]
    rfl)

/-- The only safe whitespace character is the space. -/
theorem safeWsSpace : ∀ c ∈ safeChars, isJsWs c = true → c = ' ' := by decide

/-- The collapse pass leaves a safe string without a three-space run
unchanged. -/
theorem collapseWs_id :
    ∀ (fuel : Nat) (s : List Char), (∀ c ∈ s, c ∈ safeChars) →
      ¬ (([' ', ' ', ' '] : List Char) <:+: s) → collapseWs fuel s = s := by
  intro fuel
  induction fuel with
  | zero => intro s _ _; rfl
  | succ f ih =>
    intro s hs hws
    cases s with
    | nil => rfl
    | cons c cs =>
      by_cases hwc : isJsWs c
      · have hcsp : c = ' ' := safeWsSpace c (hs c (List.mem_cons_self c cs)) hwc
        have hrun : ¬ 3 ≤ (c :: cs.takeWhile isJsWs).length := by
          cases cs with
          | nil => simp
          | cons d cs2 =>
            by_cases hwd : isJsWs d
            · have hdsp : d = ' ' := safeWsSpace d (hs d (by simp)) hwd
              cases cs2 with
              | nil => simp [List.takeWhile, hwd]
              | cons e cs3 =>
                by_cases hwe : isJsWs e
                · exfalso
                  have hesp : e = ' ' := safeWsSpace e (hs e (by simp)) hwe
                  apply hws
                  subst hcsp
                  subst hdsp
                  subst hesp
                  exact ⟨[], cs3, by simp⟩
                · simp [List.takeWhile, hwd, hwe]
            · simp [List.takeWhile, hwd]
        have hdw : collapseWs f (cs.dropWhile isJsWs) = cs.dropWhile isJsWs := by
          apply ih
          · intro x hx
            exact hs x (List.mem_cons_of_mem c
              ((List.dropWhile_suffix isJsWs).subset hx))
          · intro hinf
            exact hws (hinf.trans
              ((List.dropWhile_suffix isJsWs).isInfix.trans
                (List.suffix_cons c cs).isInfix))
        simp only [collapseWs, if_pos hwc, if_neg hrun, hdw]
        rw [List.cons_append, List.takeWhile_append_dropWhile]
      · have htail : collapseWs f cs = cs := by
          apply ih
          · exact fun x hx => hs x (List.mem_cons_of_mem c hx)
          · intro hinf
            exact hws (hinf.trans (List.suffix_cons c cs).isInfix)
        simp only [collapseWs, if_neg hwc, htail]

/-- A safe string whose head is not a space is untouched by dropWhile. -/
theorem dropWhile_id_of_safe (t : List Char) (ht : ∀ c ∈ t, c ∈ safeChars)
    (hth : t.head? ≠ some ' ') : t.dropWhile isJsWs = t := by
  cases t with
  | nil => rfl
  | cons c cs =>
    have hc : isJsWs c = false := by
      cases hh : isJsWs c
      · rfl
      · exact absurd (congrArg some (safeWsSpace c
          (ht c (List.mem_cons_self c cs)) hh)) hth
    simp [List.dropWhile_cons, hc]

/-- The trim pass leaves a safe string with no space at either end
unchanged. -/
theorem trimWs_id (s : List Char) (hs : ∀ c ∈ s, c ∈ safeChars)
    (hh : s.head? ≠ some ' ') (hl : s.getLast? ≠ some ' ') : trimWs s = s := by
  unfold trimWs
  rw [dropWhile_id_of_safe s hs hh]
  rw [dropWhile_id_of_safe s.reverse (fun c hc => hs c (List.mem_reverse.mp hc))
    (by rw [List.head?_reverse]; exact hl)]
  exact List.reverse_reverse s

/-- Claim C5 (amended): sanitizeContent is not idempotent in general
(the escape of a quote, slash, ampersand, backquote or equals sign
introduces entity text whose semicolon the SQL deny list rejects on a
second pass), but on strings over letters, digits, underscore, hyphen
and space that pass the deny list, contain no run of three spaces and
neither start nor end with a space, sanitizeContent is the identity and
therefore idempotent. -/
theorem claim_C5_amended (s : List Char)
    (hsafe : ∀ c ∈ s, c ∈ safeChars)
    (hsql : hasSql s = false)
    (hws : ¬ (([' ', ' ', ' '] : List Char) <:+: s))
    (hh : s.head? ≠ some ' ') (hl : s.getLast? ≠ some ' ') :
    sanitizeContent s = some s ∧
    (sanitizeContent s).bind sanitizeContent = sanitizeContent s := by
  have hid : sanitizeContent s = some s := by
    unfold sanitizeContent
    rw [xssStrip_id s hsafe]
    simp only [hsql, Bool.false_eq_true, if_false]
    rw [escapeHtml_id s hsafe, ctrlStrip_id s hsafe]
    rw [collapseWs_id _ s hsafe hws, trimWs_id s hsafe hh hl]
  refine ⟨hid, ?_⟩
  rw [hid, Option.some_bind]
  exact hid

/-- Witness for claim C5 (amended) at a plain greeting. -/
theorem claim_C5_amended_witness :
    sanitizeContent ("hello world".toList) = some ("hello world".toList) ∧
    (sanitizeContent ("hello world".toList)).bind sanitizeContent
      = sanitizeContent ("hello world".toList) :=
  claim_C5_amended ("hello world".toList) (by decide) (by decide) (by decide)
    (by decide) (by decide)
